import Mathlib

set_option autoImplicit false

/-!
Shallow embedding of the `gcfstructuredlogformatter` Go package
(`formatter.go`): a logrus formatter that turns one log entry into a
newline-terminated JSON line in the Google structured-logging schema.

Modelling conventions:
* Go maps are association lists paired with an allocation reference
  (`MapRef`), so that reference semantics is visible: the payload of the
  produced record aliases the entry's `Data` map (same `ref`), while the
  copied label map gets a fresh `ref`.  A `nil` Go map is `Option.none`;
  assigning into a `nil` map is a run-time panic, modelled as the `none`
  outcome of `Format`.
* Values stored in `logrus.Fields` are modelled by `JSONValue`; the
  `unsupported` constructor stands for values `encoding/json` cannot
  marshal (channels, functions, cyclic data), which is exactly when
  `json.Marshal` returns an error.
* `logrus.Level` is a machine integer, modelled as `Nat`
  (Panic=0, Fatal=1, Error=2, Warn=3, Info=4, Debug=5, Trace=6).
* `logging.Severity` from `cloud.google.com/go/logging` is a machine
  integer, modelled as `Nat` with the named constants used here.
* OpenTelemetry trace/span identifiers are 16 and 8 byte values, modelled
  as `Nat`; a span context is valid when both are non-zero, and the
  canonical string form is fixed-width lowercase hex.
-/

namespace GCFStructuredLogFormatter

/-- A JSON-serializable Go value as stored in `logrus.Fields`
(a map from string to arbitrary interface values).  `unsupported` stands
for a Go value that `encoding/json` cannot marshal. -/
inductive JSONValue : Type where
  | null : JSONValue
  | bool : Bool → JSONValue
  | num : Int → JSONValue
  | str : String → JSONValue
  | arr : List JSONValue → JSONValue
  | obj : List (String × JSONValue) → JSONValue
  | unsupported : String → JSONValue

mutual

/-- Does this value contain a part that `encoding/json` cannot marshal? -/
def JSONValue.hasUnsupported : JSONValue → Bool
  | .null => false
  | .bool _ => false
  | .num _ => false
  | .str _ => false
  | .arr xs => listHasUnsupported xs
  | .obj kvs => objHasUnsupported kvs
  | .unsupported _ => true

/-- `hasUnsupported` over a list of values. -/
def listHasUnsupported : List JSONValue → Bool
  | [] => false
  | x :: xs => x.hasUnsupported || listHasUnsupported xs

/-- `hasUnsupported` over the entries of an object. -/
def objHasUnsupported : List (String × JSONValue) → Bool
  | [] => false
  | (_, v) :: xs => v.hasUnsupported || objHasUnsupported xs

end

/-- Lowercase hex digit for a value below 16. -/
def hexDigitChar (n : Nat) : Char :=
  if n < 10 then Char.ofNat (48 + n) else Char.ofNat (87 + n)

/-- Fixed-width big-endian lowercase hex digits of `n` (as used by
`hex.EncodeToString` on trace/span identifier byte arrays). -/
def hexFixedChars : Nat → Nat → List Char
  | 0, _ => []
  | w + 1, n => hexFixedChars w (n / 16) ++ [hexDigitChar (n % 16)]

/-- Fixed-width lowercase hex string of `n`. -/
def hexFixed (w : Nat) (n : Nat) : String :=
  String.mk (hexFixedChars w n)

/-- JSON escaping of one character, as `encoding/json` does by default
(double quote, backslash, the short control escapes, HTML-unsafe
characters, and other control characters as unicode escapes). -/
def jsonEscapeChar (c : Char) : String :=
  if c = '"' then "\\\""
  else if c = '\\' then "\\\\"
  else if c = '\n' then "\\n"
  else if c = '\r' then "\\r"
  else if c = '\t' then "\\t"
  else if c = '<' then "\\u003c"
  else if c = '>' then "\\u003e"
  else if c = '&' then "\\u0026"
  else if c.toNat < 32 then
    "\\u00" ++ String.mk [hexDigitChar (c.toNat / 16), hexDigitChar (c.toNat % 16)]
  else String.singleton c

/-- A JSON string literal for `s`. -/
def jsonQuote (s : String) : String :=
  "\"" ++ String.join (s.toList.map jsonEscapeChar) ++ "\""

mutual

/-- Render a value as JSON text (total; only applied to payloads with no
`unsupported` part, which is checked separately, as `json.Marshal` fails
on those). -/
def renderValue : JSONValue → String
  | .null => "null"
  | .bool b => if b then "true" else "false"
  | .num n => toString n
  | .str s => jsonQuote s
  | .arr xs => "[" ++ renderList xs ++ "]"
  | .obj kvs => "\x7b" ++ renderObj kvs ++ "\x7d"
  | .unsupported _ => "null"

/-- Render the comma-separated elements of a JSON array. -/
def renderList : List JSONValue → String
  | [] => ""
  | [x] => renderValue x
  | x :: y :: rest => renderValue x ++ "," ++ renderList (y :: rest)

/-- Render the comma-separated members of a JSON object. -/
def renderObj : List (String × JSONValue) → String
  | [] => ""
  | [(k, v)] => jsonQuote k ++ ":" ++ renderValue v
  | (k, v) :: p :: rest => jsonQuote k ++ ":" ++ renderValue v ++ "," ++ renderObj (p :: rest)

end

/-- First value bound to `k`, i.e. Go map lookup (keys are unique in a
real Go map, so first = only). -/
def mapGet {α : Type} : List (String × α) → String → Option α
  | [], _ => none
  | (k0, v0) :: rest, k => if k0 = k then some v0 else mapGet rest k

/-- Go map assignment `m[k] = v`: overwrite the binding of `k`, or
append a new one. -/
def mapSet {α : Type} : List (String × α) → String → α → List (String × α)
  | [], k, v => [(k, v)]
  | (k0, v0) :: rest, k, v =>
      if k0 = k then (k, v) :: rest else (k0, v0) :: mapSet rest k v

/-- A Go map object: an allocation reference plus its current contents.
Two maps with the same `ref` are the same object (aliases). -/
structure MapRef (α : Type) : Type where
  ref : Nat
  content : List (String × α)

/-- Assignment through a map reference: same object, updated contents. -/
def mapRefSet {α : Type} (m : MapRef α) (k : String) (v : α) : MapRef α :=
  ⟨m.ref, mapSet m.content k v⟩

/-- The Go loop `for key, value := range src do dst[key] = value`
starting from contents `acc`. -/
def copyInto {α : Type} : List (String × α) → List (String × α) → List (String × α)
  | acc, [] => acc
  | acc, (k, v) :: rest => copyInto (mapSet acc k v) rest

/-- Overwrite the contents of the map object named `r` in a heap of map
objects (used to express that writes through one reference cannot be
seen through a different reference). -/
def mapWrite {α : Type} (h : Nat → List (String × α)) (r : Nat)
    (c : List (String × α)) : Nat → List (String × α) :=
  fun x => if x = r then c else h x

/-- An OpenTelemetry span context: 16-byte trace id and 8-byte span id. -/
structure SpanContext : Type where
  traceID : Nat
  spanID : Nat

/-- `SpanContext.IsValid`: both identifiers non-zero. -/
def SpanContext.isValid (sc : SpanContext) : Bool :=
  decide (sc.traceID ≠ 0) && decide (sc.spanID ≠ 0)

/-- `TraceID.String`: 32 lowercase hex digits. -/
def SpanContext.traceIDString (sc : SpanContext) : String :=
  hexFixed 32 sc.traceID

/-- `SpanID.String`: 16 lowercase hex digits. -/
def SpanContext.spanIDString (sc : SpanContext) : String :=
  hexFixed 16 sc.spanID

/-- Caller information (`runtime.Frame`): function, file, line. -/
structure Caller : Type where
  Function : String
  File : String
  Line : Nat

/-- A `logrus.Entry` as far as `Format` reads it.  `Data` is the field
map (`none` = nil map).  `Context` is `none` when `entry.Context == nil`;
otherwise it carries the span context of the span that
`trace.SpanFromContext` extracts (the zero, invalid span context when no
span is active in the context). -/
structure Entry : Type where
  Level : Nat
  Message : String
  Data : Option (MapRef JSONValue)
  Context : Option SpanContext
  Caller : Option Caller

/-- The formatter: an optional map of additional labels. -/
structure Formatter : Type where
  Labels : MapRef String

/-- `New` creates a formatter with a fresh empty label map
(`freshRef` names the allocation). -/
def New (freshRef : Nat) : Formatter :=
  ⟨⟨freshRef, []⟩⟩

/-- `logging.Default` (cloud.google.com/go/logging severity value). -/
def loggingDefault : Nat := 0

/-- `logging.Debug`. -/
def loggingDebug : Nat := 100

/-- `logging.Info`. -/
def loggingInfo : Nat := 200

/-- `logging.Warning`. -/
def loggingWarning : Nat := 400

/-- `logging.Error`. -/
def loggingError : Nat := 500

/-- `logging.Alert`. -/
def loggingAlert : Nat := 700

/-- `logging.Emergency`. -/
def loggingEmergency : Nat := 800

/-- The package-level map from logrus level to Google severity
(lookup returning `none` on a missing key). -/
def logrusToGoogleSeverityMap (level : Nat) : Option Nat :=
  if level = 0 then some loggingEmergency
  else if level = 1 then some loggingAlert
  else if level = 2 then some loggingError
  else if level = 3 then some loggingWarning
  else if level = 4 then some loggingInfo
  else if level = 5 then some loggingDebug
  else if level = 6 then some loggingDefault
  else none

/-- Lines 72-75 of `Format`: start from `logging.Default` and replace it
when the level is in the map. -/
def formatSeverity (level : Nat) : Nat :=
  (logrusToGoogleSeverityMap level).getD loggingDefault

/-- `logging.Severity.String`: the severity's name, or its decimal
representation for an unnamed value. -/
def severityString (s : Nat) : String :=
  if s = loggingDefault then "Default"
  else if s = loggingDebug then "Debug"
  else if s = loggingInfo then "Info"
  else if s = 300 then "Notice"
  else if s = loggingWarning then "Warning"
  else if s = loggingError then "Error"
  else if s = 600 then "Critical"
  else if s = loggingAlert then "Alert"
  else if s = loggingEmergency then "Emergency"
  else toString s

/-- `fmt.Sprintf` of the exception string from line 98:
function, newline, tab, file, colon, line, newline. -/
def callerExceptionString (c : Caller) : String :=
  c.Function ++ "\n\t" ++ c.File ++ ":" ++ toString c.Line ++ "\n"

/-- The abbreviated Google structured-logging record (`logEntry`). -/
structure logEntry : Type where
  Severity : String
  Trace : String
  SpanID : String
  Labels : MapRef String
  JSONPayload : MapRef JSONValue

/-- The top-level members `json.Marshal` emits for a `logEntry`, as
(key, rendered value) pairs, honouring the `omitempty` struct tags on
`severity`, the trace keys and `labels`; `jsonPayload` is always
present. -/
def logEntryFields (rc : logEntry) : List (String × String) :=
  (if rc.Severity = "" then [] else [("severity", jsonQuote rc.Severity)])
  ++ (if rc.Trace = "" then []
      else [("logging.googleapis.com/trace", jsonQuote rc.Trace)])
  ++ (if rc.SpanID = "" then []
      else [("logging.googleapis.com/spanId", jsonQuote rc.SpanID)])
  ++ (if rc.Labels.content = [] then []
      else [("labels", renderValue (.obj (rc.Labels.content.map (fun p => (p.1, .str p.2)))))])
  ++ [("jsonPayload", renderValue (.obj rc.JSONPayload.content))]

/-- The JSON text for a `logEntry`. -/
def renderLogEntry (rc : logEntry) : String :=
  "\x7b" ++ String.intercalate ","
    ((logEntryFields rc).map (fun p => jsonQuote p.1 ++ ":" ++ p.2)) ++ "\x7d"

/-- `json.Marshal` on a `logEntry`: fails exactly when the payload holds
a value that cannot be encoded (severity, trace ids and labels are
strings and always encode). -/
def marshalLogEntry (rc : logEntry) : Except String String :=
  if objHasUnsupported rc.JSONPayload.content then
    Except.error "json: unsupported type"
  else Except.ok (renderLogEntry rc)

/-- Lines 94-98 of `Format`: write `message`, then, when the severity is
`logging.Error` and caller info is present, write `exception`, into the
map `d` (which is `entry.Data`, aliased by `newEntry.JSONPayload`). -/
def buildPayload (severity : Nat) (caller : Option Caller) (message : String)
    (d : MapRef JSONValue) : MapRef JSONValue :=
  let d1 := mapRefSet d "message" (.str message)
  if severity = loggingError then
    match caller with
    | some c => mapRefSet d1 "exception" (.str (callerExceptionString c))
    | none => d1
  else d1

/-- Lines 72-98 of `Format`: the `newEntry` record as completed just
before marshalling, given the (non-nil) contents `d` of `entry.Data`.
`freshRef` names the allocation of the fresh label map on line 79. -/
def buildRecord (f : Formatter) (freshRef : Nat) (e : Entry)
    (d : MapRef JSONValue) : logEntry :=
  let severity := formatSeverity e.Level
  { Severity := severityString severity
    Trace :=
      match e.Context with
      | some sc => if sc.isValid then sc.traceIDString else ""
      | none => ""
    SpanID :=
      match e.Context with
      | some sc => if sc.isValid then sc.spanIDString else ""
      | none => ""
    Labels := ⟨freshRef, copyInto [] f.Labels.content⟩
    JSONPayload := buildPayload severity e.Caller e.Message d }

/-- Everything observable about one `Format` call. -/
structure FormatResult : Type where
  /-- `none`: the call panics (write into a nil map on line 95);
  `some (.error e)`: `Format` returns `(nil, e)`;
  `some (.ok s)`: `Format` returns the bytes `s` and a nil error. -/
  outcome : Option (Except String String)
  /-- The completed `newEntry` record (`none` when the call panics). -/
  record : Option logEntry
  /-- The final contents of the map object `entry.Data` (the payload
  writes go through the alias `newEntry.JSONPayload`). -/
  dataAfter : Option (MapRef JSONValue)
  /-- The final contents of the formatter's label map (never written). -/
  labelsAfter : MapRef String

/-- `Format` (lines 71-105), with `freshRef` naming the fresh label-map
allocation of line 79. -/
def Format (f : Formatter) (freshRef : Nat) (e : Entry) : FormatResult :=
  match e.Data with
  | none =>
      { outcome := none, record := none, dataAfter := none, labelsAfter := f.Labels }
  | some d =>
      let rc := buildRecord f freshRef e d
      match marshalLogEntry rc with
      | Except.error err =>
          { outcome := some (Except.error err), record := some rc,
            dataAfter := some rc.JSONPayload, labelsAfter := f.Labels }
      | Except.ok contents =>
          { outcome := some (Except.ok (contents ++ "\n")), record := some rc,
            dataAfter := some rc.JSONPayload, labelsAfter := f.Labels }

/-! ## Basic lemmas about the map model -/

theorem mapGet_mapSet_self {α : Type} (m : List (String × α)) (k : String) (v : α) :
    mapGet (mapSet m k v) k = some v := by
  induction m with
  | nil => simp [mapSet, mapGet]
  | cons p rest ih =>
      obtain ⟨k0, v0⟩ := p
      by_cases h : k0 = k
      · simp [mapSet, h, mapGet]
      · simp [mapSet, h, mapGet, ih]

theorem mapGet_mapSet_ne {α : Type} (m : List (String × α)) (k k' : String) (v : α)
    (h : k' ≠ k) : mapGet (mapSet m k v) k' = mapGet m k' := by
  induction m with
  | nil => simp [mapSet, mapGet, Ne.symm h]
  | cons p rest ih =>
      obtain ⟨k0, v0⟩ := p
      by_cases h0 : k0 = k
      · subst h0
        simp [mapSet, mapGet, Ne.symm h, h]
      · by_cases h1 : k0 = k'
        · simp [mapSet, mapGet, h0, h1, h]
        · simp [mapSet, mapGet, h0, h1, h, ih]

theorem mapGet_eq_none_of_not_mem {α : Type} (m : List (String × α)) (k : String)
    (h : k ∉ m.map Prod.fst) : mapGet m k = none := by
  induction m with
  | nil => simp [mapGet]
  | cons p rest ih =>
      obtain ⟨k0, v0⟩ := p
      simp only [List.map_cons, List.mem_cons] at h
      push_neg at h
      simp [mapGet, Ne.symm h.1, ih h.2]

theorem copyInto_get_of_none {α : Type} (m : List (String × α)) :
    ∀ (acc : List (String × α)) (k : String), mapGet m k = none →
      mapGet (copyInto acc m) k = mapGet acc k := by
  induction m with
  | nil => intro acc k _; rfl
  | cons p rest ih =>
      obtain ⟨k0, v0⟩ := p
      intro acc k h
      simp only [mapGet] at h
      by_cases h0 : k0 = k
      · simp [h0] at h
      · simp only [copyInto]
        rw [ih (mapSet acc k0 v0) k (by simpa [h0] using h)]
        exact mapGet_mapSet_ne acc k0 k v0 (fun hc => h0 hc.symm)

theorem copyInto_get_of_some {α : Type} (m : List (String × α)) :
    ∀ (acc : List (String × α)) (k : String) (v : α),
      (m.map Prod.fst).Nodup → mapGet m k = some v →
      mapGet (copyInto acc m) k = some v := by
  induction m with
  | nil => intro acc k v _ h; simp [mapGet] at h
  | cons p rest ih =>
      obtain ⟨k0, v0⟩ := p
      intro acc k v hnd h
      simp only [List.map_cons, List.nodup_cons] at hnd
      simp only [mapGet] at h
      by_cases h0 : k0 = k
      · subst h0
        simp only [eq_self_iff_true, if_true, Option.some.injEq] at h
        subst h
        simp only [copyInto]
        rw [copyInto_get_of_none rest (mapSet acc k0 v0) k0
              (mapGet_eq_none_of_not_mem rest k0 hnd.1)]
        exact mapGet_mapSet_self acc k0 v0
      · simp only [if_neg h0] at h
        simp only [copyInto]
        exact ih (mapSet acc k0 v0) k v hnd.2 h

theorem copyInto_nil_get {α : Type} (m : List (String × α)) (k : String)
    (hnd : (m.map Prod.fst).Nodup) :
    mapGet (copyInto [] m) k = mapGet m k := by
  cases h : mapGet m k with
  | none => rw [copyInto_get_of_none m [] k h]; rfl
  | some v => exact copyInto_get_of_some m [] k v hnd h

/-! ## Severity lemmas -/

theorem severityString_formatSeverity (l : Nat) :
    severityString (formatSeverity l) =
      if l = 0 then "Emergency"
      else if l = 1 then "Alert"
      else if l = 2 then "Error"
      else if l = 3 then "Warning"
      else if l = 4 then "Info"
      else if l = 5 then "Debug"
      else if l = 6 then "Default"
      else "Default" := by
  by_cases h0 : l = 0
  · subst h0; rfl
  by_cases h1 : l = 1
  · subst h1; rfl
  by_cases h2 : l = 2
  · subst h2; rfl
  by_cases h3 : l = 3
  · subst h3; rfl
  by_cases h4 : l = 4
  · subst h4; rfl
  by_cases h5 : l = 5
  · subst h5; rfl
  by_cases h6 : l = 6
  · subst h6; rfl
  simp [formatSeverity, logrusToGoogleSeverityMap, severityString, loggingDefault,
    h0, h1, h2, h3, h4, h5, h6]

theorem severityString_formatSeverity_ne_empty (l : Nat) :
    severityString (formatSeverity l) ≠ "" := by
  rw [severityString_formatSeverity]
  split_ifs <;> decide

theorem formatSeverity_eq_error_iff (l : Nat) :
    formatSeverity l = loggingError ↔ l = 2 := by
  by_cases h0 : l = 0
  · subst h0; decide
  by_cases h1 : l = 1
  · subst h1; decide
  by_cases h2 : l = 2
  · subst h2; decide
  by_cases h3 : l = 3
  · subst h3; decide
  by_cases h4 : l = 4
  · subst h4; decide
  by_cases h5 : l = 5
  · subst h5; decide
  by_cases h6 : l = 6
  · subst h6; decide
  simp [formatSeverity, logrusToGoogleSeverityMap, loggingDefault, loggingError,
    h0, h1, h2, h3, h4, h5, h6]

theorem severityString_eq_error_iff (l : Nat) :
    severityString (formatSeverity l) = "Error" ↔ l = 2 := by
  rw [severityString_formatSeverity]
  by_cases h0 : l = 0
  · simp [h0]
  by_cases h1 : l = 1
  · simp [h0, h1]
  by_cases h2 : l = 2
  · simp [h0, h1, h2]
  by_cases h3 : l = 3
  · simp [h0, h1, h2, h3]
  by_cases h4 : l = 4
  · simp [h0, h1, h2, h3, h4]
  by_cases h5 : l = 5
  · simp [h0, h1, h2, h3, h4, h5]
  by_cases h6 : l = 6
  · simp [h0, h1, h2, h3, h4, h5, h6]
  simp [h0, h1, h2, h3, h4, h5, h6]

/-! ## Hex encodings -/

theorem hexFixed_ne_empty (w n : Nat) (h : 0 < w) : hexFixed w n ≠ "" := by
  cases w with
  | zero => exact absurd h (lt_irrefl 0)
  | succ w =>
      intro hc
      have hdata : hexFixedChars (w + 1) n = [] := by
        have := congrArg String.data hc
        simpa [hexFixed] using this
      simp [hexFixedChars] at hdata

/-! ## Structure of one `Format` call -/

theorem Format_record_eq (f : Formatter) (r : Nat) (e : Entry) (d : MapRef JSONValue)
    (h : e.Data = some d) : (Format f r e).record = some (buildRecord f r e d) := by
  cases hm : marshalLogEntry (buildRecord f r e d) <;> simp [Format, h, hm]

theorem Format_dataAfter_eq (f : Formatter) (r : Nat) (e : Entry) (d : MapRef JSONValue)
    (h : e.Data = some d) :
    (Format f r e).dataAfter = some (buildRecord f r e d).JSONPayload := by
  cases hm : marshalLogEntry (buildRecord f r e d) <;> simp [Format, h, hm]

theorem Format_labelsAfter_eq (f : Formatter) (r : Nat) (e : Entry) :
    (Format f r e).labelsAfter = f.Labels := by
  cases h : e.Data with
  | none => simp [Format, h]
  | some d => cases hm : marshalLogEntry (buildRecord f r e d) <;> simp [Format, h, hm]

theorem Format_outcome_none_iff (f : Formatter) (r : Nat) (e : Entry) :
    (Format f r e).outcome = none ↔ e.Data = none := by
  cases h : e.Data with
  | none => simp [Format, h]
  | some d => cases hm : marshalLogEntry (buildRecord f r e d) <;> simp [Format, h, hm]

theorem Format_outcome_error_iff (f : Formatter) (r : Nat) (e : Entry) (d : MapRef JSONValue)
    (h : e.Data = some d) (err : String) :
    (Format f r e).outcome = some (Except.error err) ↔
      marshalLogEntry (buildRecord f r e d) = Except.error err := by
  cases hm : marshalLogEntry (buildRecord f r e d) with
  | error e0 => simp [Format, h, hm]
  | ok c => simp [Format, h, hm]

theorem Format_outcome_ok (f : Formatter) (r : Nat) (e : Entry) (s : String)
    (h : (Format f r e).outcome = some (Except.ok s)) :
    ∃ d, e.Data = some d ∧
      marshalLogEntry (buildRecord f r e d) = Except.ok (renderLogEntry (buildRecord f r e d)) ∧
      s = renderLogEntry (buildRecord f r e d) ++ "\n" := by
  cases hd : e.Data with
  | none => rw [show Format f r e = ⟨none, none, none, f.Labels⟩ from by simp [Format, hd]] at h; simp at h
  | some d =>
      refine ⟨d, rfl, ?_⟩
      cases hm : marshalLogEntry (buildRecord f r e d) with
      | error e0 => simp [Format, hd, hm] at h
      | ok c =>
          have hc : c = renderLogEntry (buildRecord f r e d) := by
            by_cases hu : objHasUnsupported (buildRecord f r e d).JSONPayload.content <;>
              simp [marshalLogEntry, hu] at hm
            · exact hm.symm
          simp [Format, hd, hm] at h
          subst hc
          exact ⟨rfl, h.symm⟩

theorem marshal_error_iff (rc : logEntry) :
    (∃ err, marshalLogEntry rc = Except.error err) ↔
      objHasUnsupported rc.JSONPayload.content = true := by
  by_cases hu : objHasUnsupported rc.JSONPayload.content <;> simp [marshalLogEntry, hu]

/-! ## Payload lemmas -/

theorem buildPayload_ref (s : Nat) (caller : Option Caller) (msg : String)
    (d : MapRef JSONValue) : (buildPayload s caller msg d).ref = d.ref := by
  unfold buildPayload mapRefSet
  by_cases h : s = loggingError
  · cases caller <;> simp [h]
  · simp [h]

theorem buildPayload_content (s : Nat) (caller : Option Caller) (msg : String)
    (d : MapRef JSONValue) :
    (buildPayload s caller msg d).content =
      if s = loggingError then
        (match caller with
         | some c => mapSet (mapSet d.content "message" (JSONValue.str msg)) "exception"
             (JSONValue.str (callerExceptionString c))
         | none => mapSet d.content "message" (JSONValue.str msg))
      else mapSet d.content "message" (JSONValue.str msg) := by
  unfold buildPayload mapRefSet
  by_cases h : s = loggingError
  · cases caller <;> simp [h]
  · simp [h]

theorem buildPayload_get_message (s : Nat) (caller : Option Caller) (msg : String)
    (d : MapRef JSONValue) :
    mapGet (buildPayload s caller msg d).content "message" = some (.str msg) := by
  rw [buildPayload_content]
  by_cases h : s = loggingError
  · cases caller with
    | none => simp [h, mapGet_mapSet_self]
    | some c =>
        have h1 : mapGet (mapSet (mapSet d.content "message" (JSONValue.str msg)) "exception"
            (JSONValue.str (callerExceptionString c))) "message" =
            mapGet (mapSet d.content "message" (JSONValue.str msg)) "message" :=
          mapGet_mapSet_ne _ _ _ _ (by decide)
        simp [h, h1, mapGet_mapSet_self]
  · simp [h, mapGet_mapSet_self]

theorem buildPayload_get_other (s : Nat) (caller : Option Caller) (msg : String)
    (d : MapRef JSONValue) (k : String) (hk1 : k ≠ "message") (hk2 : k ≠ "exception") :
    mapGet (buildPayload s caller msg d).content k = mapGet d.content k := by
  rw [buildPayload_content]
  by_cases h : s = loggingError
  · cases caller with
    | none => simp [h, mapGet_mapSet_ne _ _ _ _ hk1]
    | some c =>
        have h1 := mapGet_mapSet_ne (mapSet d.content "message" (JSONValue.str msg))
          "exception" k (JSONValue.str (callerExceptionString c)) hk2
        simp [h, h1, mapGet_mapSet_ne _ _ _ _ hk1]
  · simp [h, mapGet_mapSet_ne _ _ _ _ hk1]

theorem buildPayload_get_exception_inject (s : Nat) (c : Caller) (msg : String)
    (d : MapRef JSONValue) (hs : s = loggingError) :
    mapGet (buildPayload s (some c) msg d).content "exception" =
      some (.str (callerExceptionString c)) := by
  rw [buildPayload_content]
  simp [hs, mapGet_mapSet_self]

theorem buildPayload_get_exception_skip (s : Nat) (caller : Option Caller) (msg : String)
    (d : MapRef JSONValue) (h : ¬(s = loggingError ∧ caller.isSome = true)) :
    mapGet (buildPayload s caller msg d).content "exception" =
      mapGet d.content "exception" := by
  rw [buildPayload_content]
  by_cases hs : s = loggingError
  · cases caller with
    | none => simp [hs, mapGet_mapSet_ne _ _ _ _ (by decide : ("exception" : String) ≠ "message")]
    | some c => exact absurd ⟨hs, rfl⟩ h
  · simp [hs, mapGet_mapSet_ne _ _ _ _ (by decide : ("exception" : String) ≠ "message")]

/-! ## Keys of the serialized record -/

theorem keys_logEntryFields (rc : logEntry) :
    (logEntryFields rc).map Prod.fst =
      (if rc.Severity = "" then [] else ["severity"])
      ++ (if rc.Trace = "" then [] else ["logging.googleapis.com/trace"])
      ++ (if rc.SpanID = "" then [] else ["logging.googleapis.com/spanId"])
      ++ (if rc.Labels.content = [] then [] else ["labels"])
      ++ ["jsonPayload"] := by
  unfold logEntryFields
  split_ifs <;> simp

/-! ## Projections of the built record -/

theorem record_eq_build (f : Formatter) (r : Nat) (e : Entry) (d : MapRef JSONValue)
    (rc : logEntry) (hd : e.Data = some d) (hrc : (Format f r e).record = some rc) :
    rc = buildRecord f r e d := by
  have h1 := Format_record_eq f r e d hd
  rw [hrc] at h1
  exact Option.some.inj h1

theorem buildRecord_Severity (f : Formatter) (r : Nat) (e : Entry) (d : MapRef JSONValue) :
    (buildRecord f r e d).Severity = severityString (formatSeverity e.Level) := rfl

theorem buildRecord_Trace (f : Formatter) (r : Nat) (e : Entry) (d : MapRef JSONValue) :
    (buildRecord f r e d).Trace =
      (match e.Context with
       | some sc => if sc.isValid then sc.traceIDString else ""
       | none => "") := rfl

theorem buildRecord_SpanID (f : Formatter) (r : Nat) (e : Entry) (d : MapRef JSONValue) :
    (buildRecord f r e d).SpanID =
      (match e.Context with
       | some sc => if sc.isValid then sc.spanIDString else ""
       | none => "") := rfl

theorem buildRecord_Labels (f : Formatter) (r : Nat) (e : Entry) (d : MapRef JSONValue) :
    (buildRecord f r e d).Labels = ⟨r, copyInto [] f.Labels.content⟩ := rfl

theorem buildRecord_JSONPayload (f : Formatter) (r : Nat) (e : Entry) (d : MapRef JSONValue) :
    (buildRecord f r e d).JSONPayload =
      buildPayload (formatSeverity e.Level) e.Caller e.Message d := rfl

/-! ## Claim C1 -/

/-- C1: for every log event (with a non-nil field map, so that the call
completes), `Format` maps the event's level to the output severity
string by the fixed total table Panic(0) to Emergency, Fatal(1) to
Alert, Error(2) to Error, Warn(3) to Warning, Info(4) to Info, Debug(5)
to Debug, Trace(6) to Default, and any level outside these seven to
Default. -/
theorem C1_severity_table (f : Formatter) (r : Nat) (e : Entry) (d : MapRef JSONValue)
    (rc : logEntry) (hd : e.Data = some d) (hrc : (Format f r e).record = some rc) :
    rc.Severity =
      if e.Level = 0 then "Emergency"
      else if e.Level = 1 then "Alert"
      else if e.Level = 2 then "Error"
      else if e.Level = 3 then "Warning"
      else if e.Level = 4 then "Info"
      else if e.Level = 5 then "Debug"
      else if e.Level = 6 then "Default"
      else "Default" := by
  have hb := record_eq_build f r e d rc hd hrc
  subst hb
  rw [buildRecord_Severity]
  exact severityString_formatSeverity e.Level

/-- Concrete formatter used by the C1 witness. -/
def fmtC1 : Formatter := ⟨⟨0, []⟩⟩

/-- Concrete entry used by the C1 witness (Trace level). -/
def entC1 : Entry := ⟨6, "m", some ⟨1, []⟩, none, none⟩

/-- Witness for C1 at the Trace level: the severity string is Default. -/
theorem C1_severity_table_witness :
    (Format fmtC1 2 entC1).record = some (buildRecord fmtC1 2 entC1 ⟨1, []⟩) ∧
    (buildRecord fmtC1 2 entC1 ⟨1, []⟩).Severity = "Default" := by
  refine ⟨rfl, ?_⟩
  have h := C1_severity_table fmtC1 2 entC1 ⟨1, []⟩ (buildRecord fmtC1 2 entC1 ⟨1, []⟩) rfl rfl
  simpa [entC1] using h

/-! ## Claim C2 -/

/-- Concrete formatter for the C2 counterexample. -/
def fmtC2 : Formatter := ⟨⟨0, []⟩⟩

/-- Concrete entry for the C2 counterexample: an Info-level event whose
own field map already carries an "exception" key. -/
def entC2 : Entry := ⟨4, "m", some ⟨1, [("exception", JSONValue.str "boom")]⟩, none, none⟩

/-- C2 counterexample: at severity Info (not Error) the payload still
contains an "exception" key, carried over from the event's field map, so
the claim's assertion that "exception" is absent for every non-Error
severity is false. -/
theorem C2_counterexample :
    (Format fmtC2 2 entC2).record.map logEntry.Severity = some "Info" ∧
    (Format fmtC2 2 entC2).record.map (fun rc => mapGet rc.JSONPayload.content "exception") =
      some (some (JSONValue.str "boom")) := ⟨rfl, rfl⟩

/-- C2 (amended): `Format` writes "exception" into the payload iff the
mapped severity is exactly "Error" and the event carries caller info,
and the written value is function, newline, tab, file, colon, line,
newline; for every other severity, or Error without caller info, the
payload's "exception" entry is exactly the one of the event's field map
(hence absent whenever the field map has none). -/
theorem C2_exception_amended (f : Formatter) (r : Nat) (e : Entry) (d : MapRef JSONValue)
    (rc : logEntry) (hd : e.Data = some d) (hrc : (Format f r e).record = some rc) :
    (∀ c, rc.Severity = "Error" → e.Caller = some c →
      mapGet rc.JSONPayload.content "exception" = some (.str (callerExceptionString c)))
    ∧ ((rc.Severity ≠ "Error" ∨ e.Caller = none) →
      mapGet rc.JSONPayload.content "exception" = mapGet d.content "exception") := by
  have hb := record_eq_build f r e d rc hd hrc
  subst hb
  rw [buildRecord_JSONPayload, buildRecord_Severity]
  constructor
  · intro c hsev hcaller
    have hl : e.Level = 2 := (severityString_eq_error_iff e.Level).mp hsev
    have hs : formatSeverity e.Level = loggingError := (formatSeverity_eq_error_iff e.Level).mpr hl
    rw [hcaller]
    exact buildPayload_get_exception_inject (formatSeverity e.Level) c e.Message d hs
  · intro h
    refine buildPayload_get_exception_skip (formatSeverity e.Level) e.Caller e.Message d ?_
    rintro ⟨hs, hc⟩
    cases h with
    | inl hne =>
        exact hne ((severityString_eq_error_iff e.Level).mpr
          ((formatSeverity_eq_error_iff e.Level).mp hs))
    | inr hnone => rw [hnone] at hc; simp at hc

/-- Concrete formatter for the C2 witness. -/
def fmtC2w : Formatter := ⟨⟨0, []⟩⟩

/-- Concrete entry for the C2 witness: Error level with caller info. -/
def entC2w : Entry := ⟨2, "m", some ⟨1, []⟩, none, some ⟨"f", "a.go", 7⟩⟩

/-- Witness for C2 (amended): the injected exception string at a
concrete Error-level event with caller info. -/
theorem C2_exception_amended_witness :
    mapGet (buildRecord fmtC2w 2 entC2w ⟨1, []⟩).JSONPayload.content "exception" =
      some (JSONValue.str "f\n\ta.go:7\n") := by
  have h := (C2_exception_amended fmtC2w 2 entC2w ⟨1, []⟩
    (buildRecord fmtC2w 2 entC2w ⟨1, []⟩) rfl rfl).1 ⟨"f", "a.go", 7⟩ rfl rfl
  simpa [callerExceptionString] using h

/-! ## Claim C3 -/

/-- C3: the output fields trace and spanId are populated (with the
fixed-width lowercase hex encodings of the span's trace and span ids)
iff the event carries a context whose extracted span context is valid
(non-zero trace and span ids); with no context or an invalid span
context both are empty and their keys are omitted from the serialized
output. -/
theorem C3_trace_span (f : Formatter) (r : Nat) (e : Entry) (d : MapRef JSONValue)
    (rc : logEntry) (hd : e.Data = some d) (hrc : (Format f r e).record = some rc) :
    (∀ sc, e.Context = some sc → sc.isValid = true →
      rc.Trace = sc.traceIDString ∧ rc.SpanID = sc.spanIDString ∧
      rc.Trace ≠ "" ∧ rc.SpanID ≠ "" ∧
      "logging.googleapis.com/trace" ∈ (logEntryFields rc).map Prod.fst ∧
      "logging.googleapis.com/spanId" ∈ (logEntryFields rc).map Prod.fst)
    ∧ ((e.Context = none ∨ ∃ sc, e.Context = some sc ∧ sc.isValid = false) →
      rc.Trace = "" ∧ rc.SpanID = "" ∧
      "logging.googleapis.com/trace" ∉ (logEntryFields rc).map Prod.fst ∧
      "logging.googleapis.com/spanId" ∉ (logEntryFields rc).map Prod.fst) := by
  have hb := record_eq_build f r e d rc hd hrc
  subst hb
  constructor
  · intro sc hsc hvalid
    have htr : (buildRecord f r e d).Trace = sc.traceIDString := by
      rw [buildRecord_Trace, hsc]
      simp [hvalid]
    have hsp : (buildRecord f r e d).SpanID = sc.spanIDString := by
      rw [buildRecord_SpanID, hsc]
      simp [hvalid]
    have htrne : (buildRecord f r e d).Trace ≠ "" := by
      rw [htr]
      exact hexFixed_ne_empty 32 sc.traceID (by omega)
    have hspne : (buildRecord f r e d).SpanID ≠ "" := by
      rw [hsp]
      exact hexFixed_ne_empty 16 sc.spanID (by omega)
    refine ⟨htr, hsp, htrne, hspne, ?_, ?_⟩
    · rw [keys_logEntryFields]
      simp [htrne]
    · rw [keys_logEntryFields]
      simp [hspne]
  · intro h
    have htr : (buildRecord f r e d).Trace = "" := by
      rw [buildRecord_Trace]
      cases h with
      | inl hn => rw [hn]
      | inr hex =>
          obtain ⟨sc, hsc, hinv⟩ := hex
          rw [hsc]
          simp [hinv]
    have hsp : (buildRecord f r e d).SpanID = "" := by
      rw [buildRecord_SpanID]
      cases h with
      | inl hn => rw [hn]
      | inr hex =>
          obtain ⟨sc, hsc, hinv⟩ := hex
          rw [hsc]
          simp [hinv]
    refine ⟨htr, hsp, ?_, ?_⟩
    · rw [keys_logEntryFields]
      simp only [htr, hsp, if_pos rfl]
      split_ifs <;> decide
    · rw [keys_logEntryFields]
      simp only [htr, hsp, if_pos rfl]
      split_ifs <;> decide

/-- Concrete formatter for the C3 witness. -/
def fmtC3 : Formatter := ⟨⟨0, []⟩⟩

/-- Concrete entry for the C3 witness: a context with a valid span. -/
def entC3 : Entry := ⟨4, "m", some ⟨1, []⟩, some ⟨255, 3⟩, none⟩

/-- Witness for C3: trace and spanId are populated with the hex
encodings at a concrete valid span context. -/
theorem C3_trace_span_witness :
    (buildRecord fmtC3 2 entC3 ⟨1, []⟩).Trace = "000000000000000000000000000000ff" ∧
    (buildRecord fmtC3 2 entC3 ⟨1, []⟩).SpanID = "0000000000000003" ∧
    "logging.googleapis.com/trace" ∈ (logEntryFields (buildRecord fmtC3 2 entC3 ⟨1, []⟩)).map Prod.fst := by
  have h := (C3_trace_span fmtC3 2 entC3 ⟨1, []⟩
    (buildRecord fmtC3 2 entC3 ⟨1, []⟩) rfl rfl).1 ⟨255, 3⟩ rfl rfl
  exact ⟨by rw [h.1]; rfl, by rw [h.2.1]; rfl, h.2.2.2.2.1⟩

/-! ## Claim C4 -/

/-- Concrete formatter for the C4 counterexample. -/
def fmtC4 : Formatter := ⟨⟨0, []⟩⟩

/-- Concrete entry for the C4 counterexample: an Error-level event with
caller info whose field map already carries an "exception" key. -/
def entC4 : Entry :=
  ⟨2, "m", some ⟨1, [("exception", JSONValue.str "orig")]⟩, none,
    some ⟨"main.foo", "main.go", 42⟩⟩

/-- C4 counterexample: the event's own field "exception" equals "orig",
but the output payload's "exception" is the injected caller string, so
the payload does not contain all of the event's fields. -/
theorem C4_counterexample :
    (Format fmtC4 2 entC4).record.map (fun rc => mapGet rc.JSONPayload.content "exception") =
      some (some (JSONValue.str "main.foo\n\tmain.go:42\n")) ∧
    mapGet [("exception", JSONValue.str "orig")] "exception" = some (JSONValue.str "orig") ∧
    ("main.foo\n\tmain.go:42\n" : String) ≠ "orig" := ⟨rfl, rfl, by decide⟩

/-- C4 (amended): the output payload contains the key "message" with the
event's message, overwriting any pre-existing field of that name, and
contains all of the event's fields at every other key except that
"exception" is also overwritten when the mapped severity is "Error" and
caller info is present. -/
theorem C4_payload_amended (f : Formatter) (r : Nat) (e : Entry) (d : MapRef JSONValue)
    (rc : logEntry) (hd : e.Data = some d) (hrc : (Format f r e).record = some rc) :
    mapGet rc.JSONPayload.content "message" = some (.str e.Message)
    ∧ (∀ k, k ≠ "message" → k ≠ "exception" →
        mapGet rc.JSONPayload.content k = mapGet d.content k)
    ∧ (¬(rc.Severity = "Error" ∧ e.Caller.isSome = true) →
        mapGet rc.JSONPayload.content "exception" = mapGet d.content "exception") := by
  have hb := record_eq_build f r e d rc hd hrc
  subst hb
  rw [buildRecord_JSONPayload, buildRecord_Severity]
  refine ⟨buildPayload_get_message _ _ _ _, fun k hk1 hk2 =>
    buildPayload_get_other _ _ _ _ k hk1 hk2, fun h => ?_⟩
  refine buildPayload_get_exception_skip _ _ _ _ ?_
  rintro ⟨hs, hc⟩
  exact h ⟨(severityString_eq_error_iff e.Level).mpr
    ((formatSeverity_eq_error_iff e.Level).mp hs), hc⟩

/-- Concrete formatter for the C4 witness. -/
def fmtC4w : Formatter := ⟨⟨0, []⟩⟩

/-- Concrete entry for the C4 witness. -/
def entC4w : Entry := ⟨4, "hello", some ⟨1, [("prop", JSONValue.str "value")]⟩, none, none⟩

/-- Witness for C4 (amended): the payload keeps the event's field and
gains the message. -/
theorem C4_payload_amended_witness :
    mapGet (buildRecord fmtC4w 2 entC4w ⟨1, [("prop", JSONValue.str "value")]⟩).JSONPayload.content
      "message" = some (JSONValue.str "hello") ∧
    mapGet (buildRecord fmtC4w 2 entC4w ⟨1, [("prop", JSONValue.str "value")]⟩).JSONPayload.content
      "prop" = some (JSONValue.str "value") := by
  have h := C4_payload_amended fmtC4w 2 entC4w ⟨1, [("prop", JSONValue.str "value")]⟩
    (buildRecord fmtC4w 2 entC4w ⟨1, [("prop", JSONValue.str "value")]⟩) rfl rfl
  refine ⟨h.1, ?_⟩
  have h2 := h.2.1 "prop" (by decide) (by decide)
  exact h2.trans rfl

/-! ## Claim C5 -/

/-- Concrete formatter for the C5 counterexample. -/
def fmtC5 : Formatter := ⟨⟨0, []⟩⟩

/-- Concrete entry for the C5 counterexample. -/
def entC5 : Entry := ⟨4, "m", some ⟨7, []⟩, none, none⟩

/-- C5 counterexample: the event's field map is empty before the call
and contains "message" after it; `Format` mutates the event's field map
in place, so the claim that the input event is unchanged is false. -/
theorem C5_counterexample :
    entC5.Data = some ⟨7, []⟩ ∧
    (Format fmtC5 2 entC5).dataAfter = some ⟨7, [("message", JSONValue.str "m")]⟩ ∧
    (⟨7, [("message", JSONValue.str "m")]⟩ : MapRef JSONValue) ≠ ⟨7, []⟩ := by
  refine ⟨rfl, rfl, ?_⟩
  intro h
  have h2 := congrArg MapRef.content h
  simp at h2

/-- C5 (amended): `Format` does not mutate the formatter (the label map
is read, never written), but it does mutate the event's field map in
place: after a call on an event with a non-nil field map, that same map
object (same reference) additionally holds the "message" key, holds the
"exception" key with the caller string exactly under the
Error-with-caller condition — otherwise its "exception" entry is the
input's — and is unchanged at every other key; a nil field map is never
replaced. -/
theorem C5_effects_amended (f : Formatter) (r : Nat) (e : Entry) :
    (Format f r e).labelsAfter = f.Labels
    ∧ (e.Data = none → (Format f r e).dataAfter = none)
    ∧ (∀ d, e.Data = some d → ∃ m, (Format f r e).dataAfter = some m
        ∧ m.ref = d.ref
        ∧ mapGet m.content "message" = some (.str e.Message)
        ∧ (∀ k, k ≠ "message" → k ≠ "exception" →
            mapGet m.content k = mapGet d.content k)
        ∧ (∀ c, formatSeverity e.Level = loggingError → e.Caller = some c →
            mapGet m.content "exception" = some (.str (callerExceptionString c)))
        ∧ (¬(formatSeverity e.Level = loggingError ∧ e.Caller.isSome = true) →
            mapGet m.content "exception" = mapGet d.content "exception")) := by
  refine ⟨Format_labelsAfter_eq f r e, fun h => by simp [Format, h], fun d hd => ?_⟩
  refine ⟨(buildRecord f r e d).JSONPayload, Format_dataAfter_eq f r e d hd,
    ?_, ?_, ?_, ?_, ?_⟩
  · rw [buildRecord_JSONPayload]
    exact buildPayload_ref _ _ _ _
  · rw [buildRecord_JSONPayload]
    exact buildPayload_get_message _ _ _ _
  · intro k hk1 hk2
    rw [buildRecord_JSONPayload]
    exact buildPayload_get_other _ _ _ _ k hk1 hk2
  · intro c hs hcaller
    rw [buildRecord_JSONPayload, hcaller]
    exact buildPayload_get_exception_inject (formatSeverity e.Level) c e.Message d hs
  · intro hn
    rw [buildRecord_JSONPayload]
    exact buildPayload_get_exception_skip _ _ _ _ hn

/-- Concrete formatter for the C5 witness. -/
def fmtC5w : Formatter := ⟨⟨0, []⟩⟩

/-- Concrete entry for the C5 witness. -/
def entC5w : Entry := ⟨4, "x", some ⟨7, []⟩, none, none⟩

/-- Witness for C5 (amended) at a concrete event. -/
theorem C5_effects_amended_witness :
    (Format fmtC5w 2 entC5w).labelsAfter = fmtC5w.Labels ∧
    (Format fmtC5w 2 entC5w).dataAfter ≠ none := by
  have h := C5_effects_amended fmtC5w 2 entC5w
  obtain ⟨m, hm, _⟩ := h.2.2 ⟨7, []⟩ rfl
  exact ⟨h.1, by rw [hm]; simp⟩

/-! ## Claim C6 -/

/-- With no context or an invalid span context, the built record's trace
fields are empty. -/
theorem buildRecord_empty_trace (f : Formatter) (r : Nat) (e : Entry) (d : MapRef JSONValue)
    (hctx : ∀ sc, e.Context = some sc → sc.isValid = false) :
    (buildRecord f r e d).Trace = "" ∧ (buildRecord f r e d).SpanID = "" := by
  rw [buildRecord_Trace, buildRecord_SpanID]
  cases hsc : e.Context with
  | none => simp
  | some sc => simp [hctx sc hsc]

/-- Concrete formatter for the C6 counterexample. -/
def fmtC6 : Formatter := ⟨⟨0, []⟩⟩

/-- Concrete entry for the C6 counterexample: Info level, empty field
map, empty message. -/
def entC6 : Entry := ⟨4, "", some ⟨1, []⟩, none, none⟩

/-- C6 counterexample: for an event with an empty field map and empty
message the serialized output still contains the top-level key
"severity" (here with value "Info"), so the claim that every top-level
field other than jsonPayload is omitted is false. -/
theorem C6_counterexample :
    (Format fmtC6 2 entC6).record.map (fun rc => (logEntryFields rc).map Prod.fst) =
      some ["severity", "jsonPayload"] ∧
    (Format fmtC6 2 entC6).outcome =
      some (Except.ok "\x7b\"severity\":\"Info\",\"jsonPayload\":\x7b\"message\":\"\"\x7d\x7d\n") :=
  ⟨rfl, rfl⟩

/-- C6 (amended): for every log event with an empty (non-nil) field map
and an empty message, provided the severity/caller pair does not trigger
the exception injection, the configured labels are empty and there is no
valid span context, the output's jsonPayload is exactly message = empty
string and the serialized record's only top-level members are
"severity" — which is always present, carrying the level's mapped
severity string — and "jsonPayload". -/
theorem C6_minimal_amended (f : Formatter) (r : Nat) (e : Entry) (d : MapRef JSONValue)
    (hd : e.Data = some d) (hc : d.content = []) (hm : e.Message = "")
    (hnc : ¬(e.Level = 2 ∧ e.Caller.isSome = true))
    (hctx : ∀ sc, e.Context = some sc → sc.isValid = false)
    (hl : f.Labels.content = []) :
    (Format f r e).record = some (buildRecord f r e d) ∧
    logEntryFields (buildRecord f r e d) =
      [("severity", jsonQuote (severityString (formatSeverity e.Level))),
       ("jsonPayload", "\x7b\"message\":\"\"\x7d")] ∧
    (Format f r e).outcome =
      some (Except.ok (renderLogEntry (buildRecord f r e d) ++ "\n")) := by
  have hpc : (buildRecord f r e d).JSONPayload.content = [("message", JSONValue.str "")] := by
    rw [buildRecord_JSONPayload, buildPayload_content]
    by_cases hs : formatSeverity e.Level = loggingError
    · have hl2 : e.Level = 2 := (formatSeverity_eq_error_iff e.Level).mp hs
      cases hcall : e.Caller with
      | none => simp [hs, hc, hm, mapSet]
      | some c => exact absurd ⟨hl2, by rw [hcall]; rfl⟩ hnc
    · simp [hs, hc, hm, mapSet]
  have hTr := buildRecord_empty_trace f r e d hctx
  have hLab : (buildRecord f r e d).Labels.content = [] := by
    rw [buildRecord_Labels]
    simp [hl, copyInto]
  have hSev := severityString_formatSeverity_ne_empty e.Level
  have hfields : logEntryFields (buildRecord f r e d) =
      [("severity", jsonQuote (severityString (formatSeverity e.Level))),
       ("jsonPayload", "\x7b\"message\":\"\"\x7d")] := by
    simp [logEntryFields, buildRecord_Severity, hTr.1, hTr.2, hLab, hpc, hSev]
    rfl
  have hu : objHasUnsupported (buildRecord f r e d).JSONPayload.content = false := by
    rw [hpc]
    rfl
  have hmarsh : marshalLogEntry (buildRecord f r e d) =
      Except.ok (renderLogEntry (buildRecord f r e d)) := by
    simp [marshalLogEntry, hu]
  exact ⟨Format_record_eq f r e d hd, hfields, by simp [Format, hd, hmarsh]⟩

/-- Concrete formatter for the C6 witness. -/
def fmtC6w : Formatter := ⟨⟨0, []⟩⟩

/-- Concrete entry for the C6 witness: Debug level, empty field map and
message. -/
def entC6w : Entry := ⟨5, "", some ⟨1, []⟩, none, none⟩

/-- Witness for C6 (amended) at a concrete Debug-level event. -/
theorem C6_minimal_amended_witness :
    logEntryFields (buildRecord fmtC6w 2 entC6w ⟨1, []⟩) =
      [("severity", "\"Debug\""), ("jsonPayload", "\x7b\"message\":\"\"\x7d")] := by
  have h := C6_minimal_amended fmtC6w 2 entC6w ⟨1, []⟩ rfl rfl rfl (by decide)
    (fun sc hsc => nomatch hsc) rfl
  rw [h.2.1]
  rfl

/-! ## Claim C7 -/

/-- C7: the output's labels map is a fresh copy of the formatter's
configured labels: allocated at a reference distinct from the
formatter's label map, equal in content (lookup by lookup), with writes
through either reference invisible through the other, and omitted from
the serialized output when the configured labels are empty. -/
theorem C7_labels_copy (f : Formatter) (r : Nat) (e : Entry) (d : MapRef JSONValue)
    (rc : logEntry) (hd : e.Data = some d) (hrc : (Format f r e).record = some rc)
    (hfresh : r ≠ f.Labels.ref) (hnd : (f.Labels.content.map Prod.fst).Nodup) :
    rc.Labels.ref ≠ f.Labels.ref
    ∧ (∀ k, mapGet rc.Labels.content k = mapGet f.Labels.content k)
    ∧ (∀ (h : Nat → List (String × String)) (c : List (String × String)),
        mapWrite h f.Labels.ref c rc.Labels.ref = h rc.Labels.ref)
    ∧ (∀ (h : Nat → List (String × String)) (c : List (String × String)),
        mapWrite h rc.Labels.ref c f.Labels.ref = h f.Labels.ref)
    ∧ (f.Labels.content = [] → "labels" ∉ (logEntryFields rc).map Prod.fst) := by
  have hb := record_eq_build f r e d rc hd hrc
  subst hb
  have href : (buildRecord f r e d).Labels.ref = r := by rw [buildRecord_Labels]
  have hcont : (buildRecord f r e d).Labels.content = copyInto [] f.Labels.content := by
    rw [buildRecord_Labels]
  refine ⟨by rw [href]; exact hfresh, ?_, ?_, ?_, ?_⟩
  · intro k
    rw [hcont]
    exact copyInto_nil_get f.Labels.content k hnd
  · intro h c
    rw [href]
    simp [mapWrite, hfresh]
  · intro h c
    rw [href]
    simp [mapWrite, Ne.symm hfresh]
  · intro hemp
    have hLab : (buildRecord f r e d).Labels.content = [] := by
      rw [hcont, hemp]
      rfl
    rw [keys_logEntryFields, hLab]
    have hred : (if ([] : List (String × String)) = [] then ([] : List String)
        else ["labels"]) = [] := rfl
    rw [hred]
    split_ifs <;> decide

/-- Concrete formatter for the C7 witness. -/
def fmtC7 : Formatter := ⟨⟨0, [("env", "prod")]⟩⟩

/-- Concrete entry for the C7 witness. -/
def entC7 : Entry := ⟨4, "m", some ⟨1, []⟩, none, none⟩

/-- Witness for C7 at a concrete formatter with one label. -/
theorem C7_labels_copy_witness :
    (buildRecord fmtC7 5 entC7 ⟨1, []⟩).Labels.ref ≠ fmtC7.Labels.ref ∧
    mapGet (buildRecord fmtC7 5 entC7 ⟨1, []⟩).Labels.content "env" =
      mapGet fmtC7.Labels.content "env" := by
  have h := C7_labels_copy fmtC7 5 entC7 ⟨1, []⟩ (buildRecord fmtC7 5 entC7 ⟨1, []⟩)
    rfl rfl (by decide) (by decide)
  exact ⟨h.1, h.2.1 "env"⟩

/-! ## Claim C8 -/

/-- Concrete formatter for the C8 counterexample. -/
def fmtC8 : Formatter := ⟨⟨0, []⟩⟩

/-- Concrete entry for the C8 counterexample: the field map holds an
unencodable value at the key "message". -/
def entC8 : Entry := ⟨4, "m", some ⟨1, [("message", JSONValue.unsupported "chan")]⟩, none, none⟩

/-- C8 counterexample: the event's field map contains a value that
cannot be encoded to JSON, yet Format succeeds, because the message
write overwrites that value before marshalling; so "fails iff the field
mapping or payload contains an unencodable value" is false. -/
theorem C8_counterexample :
    objHasUnsupported [("message", JSONValue.unsupported "chan")] = true ∧
    (Format fmtC8 2 entC8).outcome =
      some (Except.ok "\x7b\"severity\":\"Info\",\"jsonPayload\":\x7b\"message\":\"m\"\x7d\x7d\n") :=
  ⟨rfl, rfl⟩

/-- C8 (amended): `Format` returns an error iff the final payload — the
event's field map after the "message" and conditional "exception"
writes — contains a value that cannot be encoded to JSON; that
serialization failure is the only error return, and the error is
propagated verbatim from the marshaller with no retry. -/
theorem C8_error_amended (f : Formatter) (r : Nat) (e : Entry) (d : MapRef JSONValue)
    (rc : logEntry) (hd : e.Data = some d) (hrc : (Format f r e).record = some rc) :
    ((∃ err, (Format f r e).outcome = some (Except.error err)) ↔
      objHasUnsupported rc.JSONPayload.content = true)
    ∧ (∀ err, (Format f r e).outcome = some (Except.error err) →
        marshalLogEntry rc = Except.error err)
    ∧ (∀ s, (Format f r e).outcome = some (Except.ok s) →
        objHasUnsupported rc.JSONPayload.content = false) := by
  have hb := record_eq_build f r e d rc hd hrc
  subst hb
  refine ⟨⟨?_, ?_⟩, ?_, ?_⟩
  · rintro ⟨err, herr⟩
    exact (marshal_error_iff _).mp ⟨err, (Format_outcome_error_iff f r e d hd err).mp herr⟩
  · intro hu
    obtain ⟨err, herr⟩ := (marshal_error_iff (buildRecord f r e d)).mpr hu
    exact ⟨err, (Format_outcome_error_iff f r e d hd err).mpr herr⟩
  · intro err herr
    exact (Format_outcome_error_iff f r e d hd err).mp herr
  · intro s hs
    obtain ⟨d', hd', hm, _⟩ := Format_outcome_ok f r e s hs
    rw [hd] at hd'
    obtain rfl := Option.some.inj hd'
    by_cases hu : objHasUnsupported (buildRecord f r e d).JSONPayload.content
    · simp [marshalLogEntry, hu] at hm
    · simpa using hu

/-- Concrete formatter for the C8 witness. -/
def fmtC8w : Formatter := ⟨⟨0, []⟩⟩

/-- Concrete field map for the C8 witness: an unencodable value at a key
that is not overwritten. -/
def dC8w : MapRef JSONValue := ⟨1, [("bad", JSONValue.unsupported "func")]⟩

/-- Concrete entry for the C8 witness. -/
def entC8w : Entry := ⟨4, "m", some dC8w, none, none⟩

/-- Witness for C8 (amended): a payload with an unencodable value makes
Format return the marshalling error. -/
theorem C8_error_amended_witness :
    objHasUnsupported (buildRecord fmtC8w 2 entC8w dC8w).JSONPayload.content = true ∧
    (Format fmtC8w 2 entC8w).outcome = some (Except.error "json: unsupported type") := by
  have h := C8_error_amended fmtC8w 2 entC8w dC8w (buildRecord fmtC8w 2 entC8w dC8w) rfl rfl
  exact ⟨h.1.mp ⟨"json: unsupported type", rfl⟩, rfl⟩

/-! ## Claim C9 -/

/-- C9: whenever `Format` succeeds, the returned byte sequence is
exactly the JSON serialization of the output record followed by one
trailing newline, and is non-empty (in particular non-nil). -/
theorem C9_newline (f : Formatter) (r : Nat) (e : Entry) (s : String)
    (h : (Format f r e).outcome = some (Except.ok s)) :
    (∀ d, e.Data = some d →
      (Format f r e).record = some (buildRecord f r e d) ∧
      s = renderLogEntry (buildRecord f r e d) ++ "\n") ∧
    s ≠ "" := by
  obtain ⟨d0, hd0, hmar, hs⟩ := Format_outcome_ok f r e s h
  constructor
  · intro d hd
    rw [hd0] at hd
    obtain rfl := Option.some.inj hd
    exact ⟨Format_record_eq f r e d0 hd0, hs⟩
  · rw [hs]
    intro hc
    have h2 := congrArg String.data hc
    rw [String.data_append] at h2
    simp at h2

/-- Concrete formatter for the C9 witness. -/
def fmtC9 : Formatter := ⟨⟨0, []⟩⟩

/-- Concrete entry for the C9 witness. -/
def entC9 : Entry := ⟨3, "w", some ⟨1, []⟩, none, none⟩

/-- Witness for C9 at a concrete Warning-level event. -/
theorem C9_newline_witness :
    ("\x7b\"severity\":\"Warning\",\"jsonPayload\":\x7b\"message\":\"w\"\x7d\x7d\n" : String) ≠ "" ∧
    ("\x7b\"severity\":\"Warning\",\"jsonPayload\":\x7b\"message\":\"w\"\x7d\x7d\n" : String) =
      renderLogEntry (buildRecord fmtC9 2 entC9 ⟨1, []⟩) ++ "\n" := by
  have h := C9_newline fmtC9 2 entC9
    "\x7b\"severity\":\"Warning\",\"jsonPayload\":\x7b\"message\":\"w\"\x7d\x7d\n" rfl
  exact ⟨h.2, (h.1 ⟨1, []⟩ rfl).2⟩

/-! ## Claim C10 -/

/-- C10: the payload writes go directly into the event's field map, so
the call faults (panics, outside the returned-error path) exactly when
the field map is nil, and succeeds in writing "message" whenever the
field map is non-nil. -/
theorem C10_nil_map (f : Formatter) (r : Nat) (e : Entry) :
    ((Format f r e).outcome = none ↔ e.Data = none)
    ∧ (∀ d, e.Data = some d →
        (Format f r e).outcome ≠ none ∧
        (Format f r e).record = some (buildRecord f r e d) ∧
        mapGet (buildRecord f r e d).JSONPayload.content "message" =
          some (.str e.Message)) := by
  refine ⟨Format_outcome_none_iff f r e, fun d hd => ?_⟩
  refine ⟨?_, Format_record_eq f r e d hd, ?_⟩
  · simp [Ne, Format_outcome_none_iff f r e, hd]
  · rw [buildRecord_JSONPayload]
    exact buildPayload_get_message _ _ _ _

/-- Concrete formatter for the C10 witness. -/
def fmtC10 : Formatter := ⟨⟨0, []⟩⟩

/-- Concrete entry with a nil field map. -/
def entC10a : Entry := ⟨4, "m", none, none, none⟩

/-- Concrete entry with a non-nil field map. -/
def entC10b : Entry := ⟨4, "m", some ⟨1, []⟩, none, none⟩

/-- Witness for C10: the nil-map event panics, the non-nil one does
not. -/
theorem C10_nil_map_witness :
    (Format fmtC10 2 entC10a).outcome = none ∧
    (Format fmtC10 2 entC10b).outcome ≠ none := by
  exact ⟨(C10_nil_map fmtC10 2 entC10a).1.mpr rfl,
    ((C10_nil_map fmtC10 2 entC10b).2 ⟨1, []⟩ rfl).1⟩

end GCFStructuredLogFormatter
